import Mathlib

/-!
Shallow embedding of the PARA entry-classification and project-lifecycle
core of the repository (src/components/DailyView.tsx and the project view
in src/unnamed/part_000), together with theorems settling the frozen
claims about it.
-/

namespace Para

/-- The four PARA category labels (`ParaCategory` in ../types). -/
inductive ParaCategory where
  | Projects
  | Areas
  | Resources
  | Archives
deriving DecidableEq, Repr

/-- Link display metadata (`Task['linkMetadata']`). -/
structure LinkMetadata where
  displayTitle : String
  domain : String
  favicon : String
  slug : String
  isPinned : Bool
deriving DecidableEq, Repr

/-- A frozen sub-item snapshot stored on an archived-project entry
(rendered via `task.archivedItems?.map(item => ...)` using `item.id` and
`item.title`). -/
structure ArchivedItem where
  id : String
  title : String
deriving DecidableEq, Repr

/-- An Entry (`Task` in the UI layer): id, title, category, date,
completion flag, optional link metadata, and the optional archived-project
fields `notes` and `archivedItems`. -/
structure Task where
  id : String
  title : String
  category : ParaCategory
  date : String
  completed : Bool
  linkMetadata : Option LinkMetadata
  notes : Option String
  archivedItems : Option (List ArchivedItem)
deriving DecidableEq, Repr

/-- A sub-task of a Project (`ProjectItem`): id, title, completed flag and
optional deadline. -/
structure ProjectItem where
  id : String
  title : String
  completed : Bool
  deadline : Option String
deriving DecidableEq, Repr

/-- Project term: `'Mid' | 'Long'`. -/
inductive Term where
  | Mid
  | Long
deriving DecidableEq, Repr

/-- A Project aggregate, as built in `addProject` of the project view. -/
structure Project where
  id : String
  title : String
  description : String
  term : Term
  deadline : String
  status : String
  items : List ProjectItem
  slug : String
deriving DecidableEq, Repr

/-- JavaScript `String.prototype.startsWith(pat)`: the characters of
`pat` form an initial segment of the characters of `s`. -/
def jsStartsWith (s pat : String) : Bool :=
  List.isPrefixOf pat.toList s.toList

/-- JavaScript `String.prototype.trim()`: drop leading and trailing
whitespace. -/
def jsTrim (s : String) : String :=
  String.mk (((s.toList.dropWhile Char.isWhitespace).reverse.dropWhile
    Char.isWhitespace).reverse)

/-- Source: `const isUrl = (text: string) => text.startsWith('http');`
(src/components/DailyView.tsx line 23). -/
def isUrl (text : String) : Bool :=
  jsStartsWith text "http"

/-- Core of JavaScript `String.prototype.replace` with a plain string
pattern: replace only the FIRST occurrence of `pat` (here scanning the
character list left to right). -/
def replaceFirstChars (pat repl : List Char) : List Char → List Char
  | [] => if List.isPrefixOf pat [] then repl else []
  | c :: rest =>
    if List.isPrefixOf pat (c :: rest) then repl ++ List.drop pat.length (c :: rest)
    else c :: replaceFirstChars pat repl rest

/-- Decides whether `pat` occurs as a contiguous block somewhere in the
list. -/
def occursIn (pat : List Char) : List Char → Bool
  | [] => List.isPrefixOf pat []
  | c :: rest => List.isPrefixOf pat (c :: rest) || occursIn pat rest

/-- Source: `const domain = urlObj.hostname.replace('www.', '');`
(src/components/DailyView.tsx line 37).  JavaScript `replace` with a string
pattern removes only the first occurrence of `"www."`, wherever it sits in
the hostname. -/
def deriveDomain (hostname : String) : String :=
  String.mk (replaceFirstChars "www.".toList [] hostname.toList)

/-- The external collaborators of `handleAddTask`, modelled as pure
fallible functions: the platform URL parser (`new URL(text)` throws on a
malformed URL; on success the code reads `.hostname`), the two
link-metadata collaborators (`summarizeLink`, `generateShortSlug`, each a
promise that may reject), and the text classifier (`categorizeTask`). -/
structure Collaborators where
  parseURL : String → Option String
  summarizeLink : String → Option String
  generateShortSlug : String → Option String
  categorizeTask : String → ParaCategory

/-- The payload `handleAddTask` hands to `onAddTask(title, finalCategory,
selectedDate, linkMeta)`. -/
structure AddResult where
  title : String
  category : ParaCategory
  date : String
  linkMeta : Option LinkMetadata
deriving DecidableEq, Repr

/-- The manual category selector holds a `ParaCategory | 'Auto'`; `none`
is the sentinel `'Auto'`. -/
abbrev ManualCategory := Option ParaCategory

/-- Whether the whole `try` block of `handleAddTask` succeeds for a given
input: `new URL` parses and both `summarizeLink` and `generateShortSlug`
resolve. -/
def linkResolutionOk (env : Collaborators) (text : String) : Bool :=
  (env.parseURL text).isSome && (env.summarizeLink text).isSome &&
    (env.generateShortSlug text).isSome

/-- Source: `handleAddTask` (src/components/DailyView.tsx lines 25-61).
Returns `none` exactly when the guard `if (!newTaskTitle.trim()) return;`
fires; otherwise the `AddResult` passed to `onAddTask`.  In the `try`
branch a throw of `new URL` or a rejection of either collaborator falls to
the `catch`, which classifies the raw text exactly like the non-URL
branch. -/
def handleAddTask (env : Collaborators) (manualCategory : ManualCategory)
    (newTaskTitle selectedDate : String) : Option AddResult :=
  if jsTrim newTaskTitle = "" then none
  else some (
    if isUrl newTaskTitle then
      match env.parseURL newTaskTitle, env.summarizeLink newTaskTitle,
          env.generateShortSlug newTaskTitle with
      | some hostname, some displayTitle, some slug =>
        let domain := deriveDomain hostname
        { title := newTaskTitle
          category := manualCategory.getD ParaCategory.Resources
          date := selectedDate
          linkMeta := some
            { displayTitle := displayTitle
              domain := domain
              favicon := "https://www.google.com/s2/favicons?domain=" ++ domain ++ "&sz=64"
              slug := slug
              isPinned := false } }
      | _, _, _ =>
        { title := newTaskTitle
          category := manualCategory.getD (env.categorizeTask newTaskTitle)
          date := selectedDate
          linkMeta := none }
    else
      { title := newTaskTitle
        category := manualCategory.getD (env.categorizeTask newTaskTitle)
        date := selectedDate
        linkMeta := none })

/-- Source: `toggleTask` (src/components/DailyView.tsx lines 63-67).
Looks the entry up by id; a `Resources` entry makes the whole call a
no-op, otherwise every entry with the id gets its `completed` flag
flipped by the `map`. -/
def toggleTask (tasks : List Task) (id : String) : List Task :=
  match tasks.find? (fun t => decide (t.id = id)) with
  | some task =>
    if task.category = ParaCategory.Resources then tasks
    else tasks.map (fun t => if t.id = id then { t with completed := !t.completed } else t)
  | none =>
    tasks.map (fun t => if t.id = id then { t with completed := !t.completed } else t)

/-- Source: `deleteTask` (src/components/DailyView.tsx lines 69-72):
`setTasks(prev => prev.filter(t => t.id !== id))`. -/
def deleteTask (tasks : List Task) (id : String) : List Task :=
  tasks.filter (fun t => decide (t.id ≠ id))

/-- Source: the entry card's click handler (src/components/DailyView.tsx
lines 150-157): `onClick={() => !isResources && !isArchivedProject &&
toggleTask(task.id)}` with `isResources = task.category === 'Resources'`
and `isArchivedProject = task.category === 'Archives' &&
task.archivedItems` — the toggle is dispatched only for a clicked entry
that is neither a Resources entry nor an archived project. -/
def clickTask (tasks : List Task) (task : Task) : List Task :=
  if task.category = ParaCategory.Resources then tasks
  else if task.category = ParaCategory.Archives ∧ task.archivedItems.isSome = true then tasks
  else toggleTask tasks task.id

/-- Modelled from the spec: `addEntry(title, category, date, linkMetadata?)`
of section 4.5 — the implementation behind the `onAddTask` prop lives
outside src/ (only its caller `handleAddTask` is in src).  It "creates a
new Entry with a fresh unique id, `completed = false`, and the supplied
fields"; the collection gains the new entry and no existing entry is
touched. -/
def addEntry (tasks : List Task) (freshId title : String) (category : ParaCategory)
    (date : String) (linkMeta : Option LinkMetadata) : List Task :=
  tasks ++ [{ id := freshId, title := title, category := category, date := date,
              completed := false, linkMetadata := linkMeta, notes := none,
              archivedItems := none }]

/-- Source: `activeProjects` (src/unnamed/part_000 lines 28-36): keep the
projects with `total === 0`, or `total > completed || total === 0`. -/
def activeProjects (projects : List Project) : List Project :=
  projects.filter (fun p =>
    let total := p.items.length
    if total = 0 then true
    else decide (total > (p.items.filter (fun i => i.completed)).length) || decide (total = 0))

/-- The rounding of JavaScript `Math.round` on an exact rational value:
half-up, i.e. the floor of `x + 1/2`. -/
def jsRound (x : Rat) : Int :=
  Int.floor (x + 1/2)

/-- Source: `getProgress` (src/unnamed/part_000 lines 38-43): `0` for an
empty item list, else `Math.round((completed / total) * 100)`. -/
def getProgress (project : Project) : Int :=
  let total := project.items.length
  if total = 0 then 0
  else jsRound (((project.items.filter (fun i => i.completed)).length : Rat) / (total : Rat) * 100)

/-- The progress formula in the spec's words (section 4.3): `0` on an
empty item list, otherwise `round(100 * completedCount / totalCount)` with
standard half-up rounding. -/
def progressSpec (project : Project) : Int :=
  let total := project.items.length
  if total = 0 then 0
  else Int.floor ((100 * ((project.items.filter (fun i => i.completed)).length : Rat)) / (total : Rat) + 1/2)

/-- Source: the save button of `ProjectCard` (src/unnamed/part_000 line
183): `onUpdate({...project, ...editData})` where `editData` holds
`title`, `description`, `deadline`. -/
structure EditData where
  title : String
  description : String
  deadline : String
deriving DecidableEq, Repr

/-- The whole-project edit merge `{...project, ...editData}`. -/
def mergeProjectEdit (project : Project) (e : EditData) : Project :=
  { project with title := e.title, description := e.description, deadline := e.deadline }

/-- Frame relation for `toggleTask`: the new entry equals the old one
when the old one does not carry the toggled id, and otherwise has exactly
its `completed` flag flipped, every other field kept. -/
def toggleFrame (id : String) (old new : Task) : Prop :=
  (old.id ≠ id → new = old) ∧
  (old.id = id → new.completed = !old.completed ∧ new.id = old.id ∧
    new.title = old.title ∧ new.category = old.category ∧ new.date = old.date ∧
    new.linkMetadata = old.linkMetadata ∧ new.notes = old.notes ∧
    new.archivedItems = old.archivedItems)

/-- A Resources entry for concrete instantiations. -/
def taskRes : Task :=
  { id := "t1", title := "https://example.com", category := ParaCategory.Resources,
    date := "2024-01-01", completed := false, linkMetadata := none, notes := none,
    archivedItems := none }

/-- An actionable (non-Resources) entry for concrete instantiations. -/
def taskTodo : Task :=
  { id := "t2", title := "buy milk", category := ParaCategory.Areas,
    date := "2024-01-01", completed := false, linkMetadata := none, notes := none,
    archivedItems := none }

/-- An archived-project entry (carries `notes` and `archivedItems`) for
concrete instantiations. -/
def taskArch : Task :=
  { id := "t3", title := "Old project", category := ParaCategory.Archives,
    date := "2024-01-01", completed := false, linkMetadata := none,
    notes := some "frozen description",
    archivedItems := some [{ id := "a1", title := "step 1" }] }

/-- A completed project item for concrete instantiations. -/
def itemDone : ProjectItem :=
  { id := "i-done", title := "done item", completed := true, deadline := none }

/-- A pending project item for concrete instantiations. -/
def itemPending : ProjectItem :=
  { id := "i-pending", title := "pending item", completed := false, deadline := none }

/-- A project whose items are `[done, done]`. -/
def projDD : Project :=
  { id := "p1", title := "P1", description := "d1", term := Term.Mid, deadline := "",
    status := "In Progress", items := [itemDone, itemDone], slug := "p1-slug" }

/-- A project whose items are `[done, pending]`. -/
def projDP : Project :=
  { id := "p2", title := "P2", description := "d2", term := Term.Long, deadline := "",
    status := "In Progress", items := [itemDone, itemPending], slug := "p2-slug" }

/-- A concrete collaborator assignment for concrete instantiations: URL
parsing and both link collaborators succeed, and the classifier always
answers `Areas`. -/
def stubEnv : Collaborators :=
  { parseURL := fun _ => some "www.example.com"
    summarizeLink := fun _ => some "Example Page"
    generateShortSlug := fun _ => some "ex-pg"
    categorizeTask := fun _ => ParaCategory.Areas }

/-- A collaborator assignment where `summarizeLink` rejects and everything
else succeeds. -/
def failSummarizeEnv : Collaborators :=
  { parseURL := fun _ => some "example.com"
    summarizeLink := fun _ => none
    generateShortSlug := fun _ => some "ex-pg"
    categorizeTask := fun _ => ParaCategory.Projects }

/-- A project with 3 items of which 1 is completed. -/
def projOneOfThree : Project :=
  { id := "p13", title := "P13", description := "", term := Term.Mid, deadline := "",
    status := "In Progress", items := [itemDone, itemPending, itemPending],
    slug := "p13-slug" }

/-- A project with 3 items of which 2 are completed. -/
def projTwoOfThree : Project :=
  { id := "p23", title := "P23", description := "", term := Term.Mid, deadline := "",
    status := "In Progress", items := [itemDone, itemDone, itemPending],
    slug := "p23-slug" }

/-- A project with 200 items of which 199 are completed. -/
def projAlmost : Project :=
  { id := "p200", title := "P200", description := "", term := Term.Mid, deadline := "",
    status := "In Progress", items := List.replicate 199 itemDone ++ [itemPending],
    slug := "p200-slug" }

/-- A collaborator assignment whose URL parser answers the hostname of
`http://awww.com` (exactly as the platform's URL parser does), with both
link collaborators succeeding. -/
def awwwEnv : Collaborators :=
  { parseURL := fun _ => some "awww.com"
    summarizeLink := fun _ => some "A page"
    generateShortSlug := fun _ => some "aw"
    categorizeTask := fun _ => ParaCategory.Resources }

/-- C1: for every input text and manual-category choice (with the
non-blank guard of `handleAddTask` passed), if the text is URL-shaped and
link resolution succeeds the created entry carries `linkMetadata` and its
category is the manual category when explicitly chosen, otherwise
`Resources`; if the text is not URL-shaped or link resolution failed, the
category is the manual category when explicitly chosen (not the `Auto`
sentinel, i.e. `manual = some c`), otherwise the external classifier
applied to the raw text. -/
theorem c1_classification (env : Collaborators) (manual : ManualCategory)
    (title date : String) (htrim : jsTrim title ≠ "") :
    (isUrl title = true → linkResolutionOk env title = true →
      ∃ lm : LinkMetadata, handleAddTask env manual title date =
        some { title := title, category := manual.getD ParaCategory.Resources,
               date := date, linkMeta := some lm }) ∧
    (isUrl title = false ∨ linkResolutionOk env title = false →
      handleAddTask env manual title date =
        some { title := title, category := manual.getD (env.categorizeTask title),
               date := date, linkMeta := none }) := by
  constructor
  · intro hurl hok
    cases h1 : env.parseURL title with
    | none => rw [linkResolutionOk, h1] at hok; simp at hok
    | some hostname =>
      cases h2 : env.summarizeLink title with
      | none => rw [linkResolutionOk, h1, h2] at hok; simp at hok
      | some dt =>
        cases h3 : env.generateShortSlug title with
        | none => rw [linkResolutionOk, h1, h2, h3] at hok; simp at hok
        | some slug =>
          refine ⟨{ displayTitle := dt, domain := deriveDomain hostname,
                    favicon := "https://www.google.com/s2/favicons?domain=" ++
                      deriveDomain hostname ++ "&sz=64",
                    slug := slug, isPinned := false }, ?_⟩
          simp [handleAddTask, htrim, hurl, h1, h2, h3]
  · intro hfail
    by_cases hurl : isUrl title
    · have hok : linkResolutionOk env title = false := by
        cases hfail with
        | inl h => rw [hurl] at h; exact absurd h (by simp)
        | inr h => exact h
      cases h1 : env.parseURL title with
      | none => simp [handleAddTask, htrim, hurl, h1]
      | some hostname =>
        cases h2 : env.summarizeLink title with
        | none => simp [handleAddTask, htrim, hurl, h1, h2]
        | some dt =>
          cases h3 : env.generateShortSlug title with
          | none => simp [handleAddTask, htrim, hurl, h1, h2, h3]
          | some slug =>
            exfalso
            rw [linkResolutionOk, h1, h2, h3] at hok
            simp at hok
    · simp [handleAddTask, htrim, hurl]

/-- Closed instantiation of `c1_classification`: a well-formed URL with
all collaborators succeeding and the manual selector on `Auto` yields a
link-bearing `Resources` entry. -/
theorem c1_classification_witness :
    ∃ lm : LinkMetadata, handleAddTask stubEnv none "https://example.com/page" "2024-01-01" =
      some { title := "https://example.com/page", category := ParaCategory.Resources,
             date := "2024-01-01", linkMeta := some lm } :=
  (c1_classification stubEnv none "https://example.com/page" "2024-01-01"
    (by decide)).1 (by decide) (by decide)

/-- C5: for a URL-shaped input where `summarizeLink` or
`generateShortSlug` fails, the entry is still created, carries no
`linkMetadata`, and its category falls back to the manual choice or, on
`Auto`, to the classifier applied to the raw URL string; the collaborator
failure is not fatal to the add operation. -/
theorem c5_link_failure_fallback (env : Collaborators) (manual : ManualCategory)
    (title date : String) (htrim : jsTrim title ≠ "") (hurl : isUrl title = true)
    (hfail : env.summarizeLink title = none ∨ env.generateShortSlug title = none) :
    (handleAddTask env manual title date).isSome = true ∧
    handleAddTask env manual title date =
      some { title := title, category := manual.getD (env.categorizeTask title),
             date := date, linkMeta := none } := by
  have hok : linkResolutionOk env title = false := by
    rw [linkResolutionOk]
    cases hfail with
    | inl h => rw [h]; simp
    | inr h => rw [h]; simp
  have h2 := (c1_classification env manual title date htrim).2 (Or.inr hok)
  exact ⟨by rw [h2]; rfl, h2⟩

/-- Closed instantiation of `c5_link_failure_fallback`: with
`summarizeLink` rejecting, the URL input still becomes an entry, without
link metadata and with the classifier's category. -/
theorem c5_link_failure_fallback_witness :
    handleAddTask failSummarizeEnv none "https://example.com/page" "2024-01-01" =
      some { title := "https://example.com/page", category := ParaCategory.Projects,
             date := "2024-01-01", linkMeta := none } :=
  (c5_link_failure_fallback failSummarizeEnv none "https://example.com/page" "2024-01-01"
    (by decide) (by decide) (Or.inl rfl)).2

/-- C10: an entry carries `linkMetadata` only when its text starts with
the literal characters `"http"`; any other input (including `ftp://...`
or uppercase `HTTP://...`) takes the non-link classification path and the
entry has no `linkMetadata`. -/
theorem c10_linkMeta_only_http (env : Collaborators) (manual : ManualCategory)
    (title date : String) :
    (∀ r : AddResult, handleAddTask env manual title date = some r →
      r.linkMeta.isSome = true → jsStartsWith title "http" = true) ∧
    (jsStartsWith title "http" = false → jsTrim title ≠ "" →
      handleAddTask env manual title date =
        some { title := title, category := manual.getD (env.categorizeTask title),
               date := date, linkMeta := none }) := by
  constructor
  · intro r hr hsome
    by_cases htrim : jsTrim title = ""
    · rw [handleAddTask, if_pos htrim] at hr
      exact absurd hr (by simp)
    · by_cases hurl : jsStartsWith title "http"
      · exact hurl
      · have : handleAddTask env manual title date =
            some { title := title, category := manual.getD (env.categorizeTask title),
                   date := date, linkMeta := none } := by
          simp [handleAddTask, htrim, isUrl, hurl]
        rw [this] at hr
        have hre : r = { title := title, category := manual.getD (env.categorizeTask title),
                         date := date, linkMeta := none } := by
          injection hr with h
          exact h.symm
        rw [hre] at hsome
        exact absurd hsome (by simp)
  · intro hurl htrim
    simp [handleAddTask, htrim, isUrl, hurl]

/-- Closed instantiation of `c10_linkMeta_only_http`: `ftp://...` and
uppercase `HTTP://...` inputs both produce entries with no link metadata,
classified from the raw text. -/
theorem c10_linkMeta_only_http_witness :
    handleAddTask stubEnv none "ftp://example.com" "2024-01-01" =
      some { title := "ftp://example.com", category := ParaCategory.Areas,
             date := "2024-01-01", linkMeta := none } ∧
    handleAddTask stubEnv none "HTTP://EXAMPLE.COM" "2024-01-01" =
      some { title := "HTTP://EXAMPLE.COM", category := ParaCategory.Areas,
             date := "2024-01-01", linkMeta := none } :=
  ⟨(c10_linkMeta_only_http stubEnv none "ftp://example.com" "2024-01-01").2
      (by decide) (by decide),
   (c10_linkMeta_only_http stubEnv none "HTTP://EXAMPLE.COM" "2024-01-01").2
      (by decide) (by decide)⟩

/-- C2: a project of the collection is in the active (visible) list iff it
has zero items or strictly fewer completed items than total items. -/
theorem c2_activeProjects_iff (projects : List Project) (p : Project)
    (hp : p ∈ projects) :
    p ∈ activeProjects projects ↔
      (p.items.length = 0 ∨
        (p.items.filter (fun i => i.completed)).length < p.items.length) := by
  rw [activeProjects, List.mem_filter]
  by_cases h0 : p.items.length = 0
  · simp [hp, h0]
  · simp [hp, h0]

/-- Closed instantiation of `c2_activeProjects_iff`: the project with
items `[done, done]` is excluded from the active list, the one with
`[done, pending]` is included. -/
theorem c2_activeProjects_iff_witness :
    projDD ∉ activeProjects [projDD, projDP] ∧
    projDP ∈ activeProjects [projDD, projDP] := by
  constructor
  · intro h
    have := (c2_activeProjects_iff [projDD, projDP] projDD (by decide)).mp h
    revert this
    decide
  · exact (c2_activeProjects_iff [projDD, projDP] projDP (by decide)).mpr (by decide)

/-- C8: the whole-project edit merge `{...project, ...editData}` updates
exactly `title`, `description` and `deadline`, and preserves `id`, `slug`,
`items`, `term` and `status`. -/
theorem c8_mergeProjectEdit_frame (p : Project) (e : EditData) :
    (mergeProjectEdit p e).id = p.id ∧ (mergeProjectEdit p e).slug = p.slug ∧
    (mergeProjectEdit p e).items = p.items ∧ (mergeProjectEdit p e).term = p.term ∧
    (mergeProjectEdit p e).status = p.status ∧
    (mergeProjectEdit p e).title = e.title ∧
    (mergeProjectEdit p e).description = e.description ∧
    (mergeProjectEdit p e).deadline = e.deadline :=
  ⟨rfl, rfl, rfl, rfl, rfl, rfl, rfl, rfl⟩

/-- A nonempty list with no duplicates whose elements are all equal to one
value has at most one element. -/
theorem length_le_one_of_nodup_of_all_eq {α : Type} {l : List α} {a : α}
    (hn : l.Nodup) (he : ∀ x ∈ l, x = a) : l.length ≤ 1 := by
  match l with
  | [] => simp
  | [x] => simp
  | x :: y :: r =>
    exfalso
    have hx := he x (by simp)
    have hy := he y (by simp)
    rw [List.nodup_cons] at hn
    exact hn.1 (by rw [hx, hy]; simp)

/-- C7: when the entry found for the toggled id has category `Resources`,
`toggleTask` is the identity on the whole collection; otherwise the result
relates to the input pointwise by `toggleFrame`: the entry carrying the id
has exactly its `completed` flag flipped and all other fields kept, every
other entry is unchanged — and under the data model's unique-id invariant
at most one entry carries the id. -/
theorem c7_toggleTask_frame (tasks : List Task) (id : String) (t : Task)
    (hnodup : (tasks.map Task.id).Nodup)
    (hfind : tasks.find? (fun u => decide (u.id = id)) = some t) :
    (t.category = ParaCategory.Resources → toggleTask tasks id = tasks) ∧
    (t.category ≠ ParaCategory.Resources →
      List.Forall₂ (toggleFrame id) tasks (toggleTask tasks id)) ∧
    (tasks.filter (fun u => decide (u.id = id))).length ≤ 1 := by
  refine ⟨?_, ?_, ?_⟩
  · intro hres
    simp only [toggleTask, hfind]
    rw [if_pos hres]
  · intro hres
    simp only [toggleTask, hfind]
    rw [if_neg hres]
    rw [List.forall₂_map_right_iff]
    rw [List.forall₂_same]
    intro u _
    by_cases hid : u.id = id
    · rw [toggleFrame, if_pos hid]
      exact ⟨fun hne => absurd hid hne, fun _ => ⟨rfl, rfl, rfl, rfl, rfl, rfl, rfl, rfl⟩⟩
    · rw [toggleFrame, if_neg hid]
      exact ⟨fun _ => rfl, fun heq => absurd heq hid⟩
  · have hsub : (tasks.filter (fun u => decide (u.id = id))).map Task.id
        |>.Sublist (tasks.map Task.id) :=
      List.Sublist.map Task.id (List.filter_sublist tasks)
    have hnd : ((tasks.filter (fun u => decide (u.id = id))).map Task.id).Nodup :=
      hnodup.sublist hsub
    have hall : ∀ x ∈ (tasks.filter (fun u => decide (u.id = id))).map Task.id, x = id := by
      intro x hx
      rcases List.mem_map.mp hx with ⟨u, hu, hxu⟩
      have := List.of_mem_filter hu
      rw [← hxu]
      exact of_decide_eq_true this
    have := length_le_one_of_nodup_of_all_eq hnd hall
    rwa [List.length_map] at this

/-- Closed instantiation of `c7_toggleTask_frame`: toggling the Resources
entry of a concrete two-entry collection is the identity, and toggling the
actionable entry relates input and output by the `toggleFrame` relation. -/
theorem c7_toggleTask_frame_witness :
    toggleTask [taskRes, taskTodo] "t1" = [taskRes, taskTodo] ∧
    List.Forall₂ (toggleFrame "t2") [taskRes, taskTodo]
      (toggleTask [taskRes, taskTodo] "t2") :=
  ⟨(c7_toggleTask_frame [taskRes, taskTodo] "t1" taskRes (by decide) (by decide)).1 rfl,
   (c7_toggleTask_frame [taskRes, taskTodo] "t2" taskTodo (by decide)
      (by decide)).2.1 (by decide)⟩

/-- Pointwise effect of the toggle `map` on archived-project entries:
when the clicked entry `t` is not an archived project and ids are unique,
the map leaves every archived-project entry of the collection unchanged. -/
theorem clickTask_map_frame {tasks : List Task} {t : Task}
    (hnodup : (tasks.map Task.id).Nodup) (ht : t ∈ tasks)
    (harch : ¬(t.category = ParaCategory.Archives ∧ t.archivedItems.isSome = true)) :
    List.Forall₂ (fun old new => old.category = ParaCategory.Archives →
      old.archivedItems.isSome = true → new = old) tasks
      (tasks.map (fun u => if u.id = t.id then { u with completed := !u.completed }
        else u)) := by
  rw [List.forall₂_map_right_iff, List.forall₂_same]
  intro old hold hcat hsome
  by_cases hid : old.id = t.id
  · exfalso
    have heq : old = t := List.inj_on_of_nodup_map hnodup hold ht hid
    subst heq
    exact harch ⟨hcat, hsome⟩
  · rw [if_neg hid]

/-- C9: an archived-project entry (category `Archives`, `archivedItems`
present) is terminal under the core's operations: the card's
click-dispatched toggle never changes such an entry (clicking it is
blocked by the guard, and clicking any other entry only touches that
entry's id, ids being unique), raw `toggleTask` never changes any entry's
`archivedItems` or `notes`, `deleteTask` keeps every survivor verbatim and
removes every entry carrying the deleted id entirely, and `addEntry` keeps
the existing entries as an unchanged initial segment. -/
theorem c9_archived_immutable (tasks : List Task) (id freshId title : String)
    (category : ParaCategory) (date : String) (lm : Option LinkMetadata)
    (hnodup : (tasks.map Task.id).Nodup) :
    (∀ t ∈ tasks, List.Forall₂
      (fun old new => old.category = ParaCategory.Archives →
        old.archivedItems.isSome = true → new = old)
      tasks (clickTask tasks t)) ∧
    List.Forall₂ (fun old new => new.archivedItems = old.archivedItems ∧
        new.notes = old.notes) tasks (toggleTask tasks id) ∧
    (∀ t : Task, t ∈ deleteTask tasks id ↔ t ∈ tasks ∧ t.id ≠ id) ∧
    (addEntry tasks freshId title category date lm).take tasks.length = tasks := by
  refine ⟨?_, ?_, ?_, ?_⟩
  · intro t ht
    rw [clickTask]
    by_cases hres : t.category = ParaCategory.Resources
    · rw [if_pos hres]
      exact List.forall₂_same.mpr (fun u _ _ _ => rfl)
    · rw [if_neg hres]
      by_cases harch : t.category = ParaCategory.Archives ∧ t.archivedItems.isSome = true
      · rw [if_pos harch]
        exact List.forall₂_same.mpr (fun u _ _ _ => rfl)
      · rw [if_neg harch]
        cases hfind : tasks.find? (fun u => decide (u.id = t.id)) with
        | none =>
          exfalso
          have hnone := List.find?_eq_none.mp hfind t ht
          exact hnone (decide_eq_true rfl)
        | some u =>
          by_cases hures : u.category = ParaCategory.Resources
          · simp only [toggleTask, hfind]
            rw [if_pos hures]
            exact List.forall₂_same.mpr (fun v _ _ _ => rfl)
          · simp only [toggleTask, hfind]
            rw [if_neg hures]
            exact clickTask_map_frame hnodup ht harch
  · have hmap : ∀ l : List Task,
        List.Forall₂ (fun old new => new.archivedItems = old.archivedItems ∧
          new.notes = old.notes) l
          (l.map (fun u => if u.id = id then { u with completed := !u.completed } else u)) := by
      intro l
      rw [List.forall₂_map_right_iff, List.forall₂_same]
      intro u _
      by_cases hid : u.id = id
      · rw [if_pos hid]; exact ⟨rfl, rfl⟩
      · rw [if_neg hid]; exact ⟨rfl, rfl⟩
    cases hfind : tasks.find? (fun u => decide (u.id = id)) with
    | none =>
      simp only [toggleTask, hfind]
      exact hmap tasks
    | some t =>
      by_cases hres : t.category = ParaCategory.Resources
      · simp only [toggleTask, hfind]
        rw [if_pos hres]
        exact List.forall₂_same.mpr (fun u _ => ⟨rfl, rfl⟩)
      · simp only [toggleTask, hfind]
        rw [if_neg hres]
        exact hmap tasks
  · intro t
    rw [deleteTask, List.mem_filter]
    constructor
    · intro ⟨h1, h2⟩
      exact ⟨h1, of_decide_eq_true h2⟩
    · intro ⟨h1, h2⟩
      exact ⟨h1, decide_eq_true h2⟩
  · rw [addEntry]
    exact List.take_left tasks _

/-- Closed instantiation of `c9_archived_immutable` on a collection
holding an archived-project entry. -/
theorem c9_archived_immutable_witness :
    (∀ t ∈ [taskArch, taskTodo], List.Forall₂
      (fun old new => old.category = ParaCategory.Archives →
        old.archivedItems.isSome = true → new = old)
      [taskArch, taskTodo] (clickTask [taskArch, taskTodo] t)) ∧
    List.Forall₂ (fun old new => new.archivedItems = old.archivedItems ∧
        new.notes = old.notes) [taskArch, taskTodo]
      (toggleTask [taskArch, taskTodo] "t3") ∧
    (∀ t : Task, t ∈ deleteTask [taskArch, taskTodo] "t3" ↔
        t ∈ [taskArch, taskTodo] ∧ t.id ≠ "t3") ∧
    (addEntry [taskArch, taskTodo] "t9" "new" ParaCategory.Areas "2024-01-02"
        none).take 2 = [taskArch, taskTodo] :=
  c9_archived_immutable [taskArch, taskTodo] "t3" "t9" "new" ParaCategory.Areas
    "2024-01-02" none (by decide)

/-- Unfolding of `getProgress` on a project with items. -/
theorem getProgress_eq (p : Project) (h0 : p.items.length ≠ 0) :
    getProgress p = Int.floor (((p.items.filter (fun i => i.completed)).length : Rat) /
      (p.items.length : Rat) * 100 + 1/2) := by
  simp only [getProgress, jsRound]
  rw [if_neg h0]

/-- C3: `getProgress` is exactly the spec's progress formula — `0` on an
empty item list, otherwise the half-up rounding of
`100 * completedCount / totalCount` — and a project with 1 of 3 items
completed has progress 33, with 2 of 3 completed progress 67. -/
theorem c3_getProgress_eq_spec :
    (∀ p : Project, getProgress p = progressSpec p) ∧
    getProgress projOneOfThree = 33 ∧ getProgress projTwoOfThree = 67 := by
  refine ⟨?_, ?_, ?_⟩
  · intro p
    simp only [getProgress, progressSpec, jsRound]
    by_cases h0 : p.items.length = 0
    · rw [if_pos h0, if_pos h0]
    · rw [if_neg h0, if_neg h0]
      congr 1
      rw [div_mul_eq_mul_div, mul_comm]
  · rw [getProgress_eq projOneOfThree (by decide)]
    have hfil : (projOneOfThree.items.filter (fun i => i.completed)).length = 1 := by decide
    have hlen : projOneOfThree.items.length = 3 := by decide
    rw [hfil, hlen]
    refine Int.floor_eq_iff.mpr ⟨?_, ?_⟩
    · push_cast
      norm_num
    · push_cast
      norm_num
  · rw [getProgress_eq projTwoOfThree (by decide)]
    have hfil : (projTwoOfThree.items.filter (fun i => i.completed)).length = 2 := by decide
    have hlen : projTwoOfThree.items.length = 3 := by decide
    rw [hfil, hlen]
    refine Int.floor_eq_iff.mpr ⟨?_, ?_⟩
    · push_cast
      norm_num
    · push_cast
      norm_num

/-- C4 amended: for every project with a non-empty item list the progress
lies in [0,100], progress is 100 whenever every item is completed, and
progress equals 100 exactly when at least 199/200 of the items are
completed — the spec's strict "100 iff all completed" fails at 199 of 200
(see the counterexample). -/
theorem c4_progress_bounds (p : Project) (hne : p.items ≠ []) :
    0 ≤ getProgress p ∧ getProgress p ≤ 100 ∧
    ((p.items.filter (fun i => i.completed)).length = p.items.length →
      getProgress p = 100) ∧
    (getProgress p = 100 ↔
      199 * p.items.length ≤ 200 * (p.items.filter (fun i => i.completed)).length) := by
  have h0 : p.items.length ≠ 0 := fun h => hne (List.length_eq_zero.mp h)
  have htpos : (0:Rat) < (p.items.length : Rat) := by
    have h1 : 0 < p.items.length := Nat.pos_of_ne_zero h0
    exact_mod_cast h1
  have hct : (p.items.filter (fun i => i.completed)).length ≤ p.items.length :=
    List.length_filter_le _ _
  set c : Rat := ((p.items.filter (fun i => i.completed)).length : Rat) with hc
  set t : Rat := (p.items.length : Rat) with ht
  have hcle : c ≤ t := by rw [hc, ht]; exact_mod_cast hct
  have hc0 : 0 ≤ c := by rw [hc]; positivity
  have hprog : getProgress p = Int.floor (c / t * 100 + 1/2) := getProgress_eq p h0
  have hxle : c / t * 100 ≤ 100 := by
    rw [div_mul_eq_mul_div, div_le_iff htpos]
    nlinarith
  have hxge : (0:Rat) ≤ c / t * 100 := by positivity
  have hlt : c / t * 100 + 1/2 < 101 := by linarith
  have hiff : (100:Rat) ≤ c / t * 100 + 1/2 ↔ 199 * t ≤ 200 * c := by
    rw [div_mul_eq_mul_div, ← sub_le_iff_le_add, le_div_iff htpos]
    constructor <;> intro h <;> nlinarith
  refine ⟨?_, ?_, ?_, ?_⟩
  · rw [hprog]
    exact Int.floor_nonneg.mpr (by linarith)
  · rw [hprog]
    have hflt : Int.floor (c / t * 100 + 1/2) < 101 := by
      rw [Int.floor_lt]
      push_cast
      linarith
    omega
  · intro hall
    have hctq : c = t := by rw [hc, ht, hall]
    have h199 : (100:Rat) ≤ c / t * 100 + 1/2 := hiff.mpr (by nlinarith)
    rw [hprog]
    refine Int.floor_eq_iff.mpr ⟨?_, ?_⟩
    · push_cast
      linarith
    · push_cast
      linarith
  · rw [hprog]
    constructor
    · intro h
      have h1 : ((100:Int):Rat) ≤ c / t * 100 + 1/2 := by
        have h2 := Int.floor_le (c / t * 100 + 1/2)
        rw [h] at h2
        exact_mod_cast h2
      have h3 := hiff.mp (by exact_mod_cast h1)
      rw [hc, ht] at h3
      exact_mod_cast h3
    · intro h
      have h199 : 199 * t ≤ 200 * c := by
        rw [hc, ht]
        exact_mod_cast h
      have h1 : (100:Rat) ≤ c / t * 100 + 1/2 := hiff.mpr h199
      refine Int.floor_eq_iff.mpr ⟨?_, ?_⟩
      · push_cast
        linarith
      · push_cast
        linarith

/-- Closed instantiation of `c4_progress_bounds` on the project with items
`[done, pending]`. -/
theorem c4_progress_bounds_witness :
    0 ≤ getProgress projDP ∧ getProgress projDP ≤ 100 ∧
    ((projDP.items.filter (fun i => i.completed)).length = projDP.items.length →
      getProgress projDP = 100) ∧
    (getProgress projDP = 100 ↔
      199 * projDP.items.length ≤
        200 * (projDP.items.filter (fun i => i.completed)).length) :=
  c4_progress_bounds projDP (by decide)

set_option maxRecDepth 100000 in
/-- C4 as stated is false on the code: the project with 200 items of which
199 are completed has progress 100 — `round(100*199/200) =
round(99.5) = 100` under half-up rounding — although not every item is
completed. -/
theorem c4_counterexample :
    getProgress projAlmost = 100 ∧ ¬ (∀ i ∈ projAlmost.items, i.completed = true) := by
  constructor
  · rw [getProgress_eq projAlmost (by decide)]
    have hfil : (projAlmost.items.filter (fun i => i.completed)).length = 199 := by decide
    have hlen : projAlmost.items.length = 200 := by decide
    rw [hfil, hlen]
    refine Int.floor_eq_iff.mpr ⟨?_, ?_⟩
    · push_cast
      norm_num
    · push_cast
      norm_num
  · intro h
    have hmem : itemPending ∈ projAlmost.items := by decide
    have := h itemPending hmem
    exact absurd this (by decide)

/-- If the pattern occurs nowhere in the list, first-occurrence
replacement is the identity. -/
theorem replaceFirstChars_of_not_occurs {pat repl : List Char} :
    ∀ l : List Char, occursIn pat l = false → replaceFirstChars pat repl l = l := by
  intro l
  induction l with
  | nil =>
    intro h
    rw [occursIn] at h
    rw [replaceFirstChars, if_neg (by rw [h]; exact Bool.false_ne_true)]
  | cons c rest ih =>
    intro h
    rw [occursIn, Bool.or_eq_false_iff] at h
    rw [replaceFirstChars, if_neg (by rw [h.1]; exact Bool.false_ne_true)]
    rw [ih h.2]

/-- If the pattern is an initial segment of the list, first-occurrence
replacement replaces exactly that initial segment. -/
theorem replaceFirstChars_head {pat repl : List Char} (l : List Char)
    (h : List.isPrefixOf pat l = true) :
    replaceFirstChars pat repl l = repl ++ List.drop pat.length l := by
  cases l with
  | nil =>
    rw [replaceFirstChars, if_pos h]
    simp
  | cons c rest =>
    rw [replaceFirstChars, if_pos h]

/-- C6 amended: the `domain` stored in the link metadata is the URL's host
with the FIRST occurrence of the substring `"www."` removed, wherever it
sits: a host that does not contain `"www."` at all is kept unchanged, and
a host beginning with `"www."` loses exactly that 4-character leading
block.  (The claim's stronger reading — hosts not *beginning* with
`"www."` are always unchanged — is refuted by the counterexample.) -/
theorem c6_deriveDomain_amended (hostname : String) :
    (occursIn "www.".toList hostname.toList = false → deriveDomain hostname = hostname) ∧
    (jsStartsWith hostname "www." = true →
      (deriveDomain hostname).toList = hostname.toList.drop 4) := by
  constructor
  · intro h
    rw [deriveDomain, replaceFirstChars_of_not_occurs _ h]
    rfl
  · intro h
    rw [jsStartsWith] at h
    rw [deriveDomain, replaceFirstChars_head _ h]
    rfl

/-- Closed instantiation of `c6_deriveDomain_amended`: a host without any
`"www."` is unchanged, and a leading `"www."` is stripped. -/
theorem c6_deriveDomain_amended_witness :
    deriveDomain "example.com" = "example.com" ∧
    (deriveDomain "www.example.com").toList = "www.example.com".toList.drop 4 :=
  ⟨(c6_deriveDomain_amended "example.com").1 (by decide),
   (c6_deriveDomain_amended "www.example.com").2 (by decide)⟩

/-- C6 as stated is false on the code: for the URL `http://awww.com`,
whose host `awww.com` does not begin with `"www."`, the derived domain is
`"acom"` — `replace('www.', '')` removed a non-leading occurrence — and
not the unchanged host the claim requires. -/
theorem c6_counterexample :
    jsStartsWith "awww.com" "www." = false ∧
    deriveDomain "awww.com" = "acom" ∧
    (handleAddTask awwwEnv none "http://awww.com" "2024-01-01").map
      (fun r => r.linkMeta.map (fun lm => lm.domain)) = some (some "acom") ∧
    "acom" ≠ "awww.com" := by
  refine ⟨by decide, by decide, by decide, by decide⟩

end Para
